import Mathlib

/-!
Verification of the RealState-Backend acquisition-and-normalization pipeline.

The development shallowly embeds the Python source:
* `src/api/utils.py` (`normalize_scraped_listing` and its helpers),
* `src/scrapers/idealista.py` (price tokenization, url normalization,
  validation, and the standby/run-sync dual transport),
* `src/scrapers/james_edition.py` (validation, submit/poll/fetch job flow),
* `src/scrapers/immobiliare.py` (validation and the agency result branch).

Python/JSON values are modelled by the inductive type `Val`; machine floats
are modelled by exact rationals (`Rat`); fallible Python code is modelled in
`Except PyErr`.  Network interactions are modelled by passing the wire
responses (`NetResult`) as explicit inputs.
-/

namespace RealState

/-- Python/JSON runtime values as they flow through the pipeline.
Numbers are split into `int` and `float` (exact rational model of the
Python float), mirroring the `isinstance` tests in the source. -/
inductive Val where
  | none
  | bool (b : Bool)
  | int (n : Int)
  | float (q : Rat)
  | str (s : String)
  | list (xs : List Val)
  | dict (kvs : List (String × Val))

/-- Python exceptions that the embedded code can raise. -/
inductive PyErr where
  | typeError
  | attributeError
  | keyError
  | valueError (v : Val)
  | runtimeError (v : Val)
  | requestException (msg : String)
  | httpError (status : Nat)

/-- Python truthiness (`bool(x)`) on `Val`. -/
def truthy : Val → Bool
  | .none => false
  | .bool b => b
  | .int n => n != 0
  | .float q => q != 0
  | .str s => s != ""
  | .list xs => !xs.isEmpty
  | .dict kvs => !kvs.isEmpty

/-- Python `a or b`: the first operand when truthy, else the second. -/
def pyOr (a b : Val) : Val := if truthy a then a else b

/-- Membership of a value in Python's tuple `(None, "", [], {})` under `==`
(used by `_first_non_empty` in src/api/utils.py).  Note that numeric zero
and `False` are *not* equal to any tuple element, hence not "empty". -/
def isEmptyVal : Val → Bool
  | .none => true
  | .str s => s == ""
  | .list xs => xs.isEmpty
  | .dict kvs => kvs.isEmpty
  | _ => false

/-- `d.get(k)` on a dict represented as an association list (missing key
gives `None`). -/
def dictGet (kvs : List (String × Val)) (k : String) : Val :=
  match kvs.find? (fun p => p.1 == k) with
  | some p => p.2
  | Option.none => Val.none

/-- `d.get(k, default)`. -/
def pyGetDefault (kvs : List (String × Val)) (k : String) (d : Val) : Val :=
  match kvs.find? (fun p => p.1 == k) with
  | some p => p.2
  | Option.none => d

/-- `d.get(k)` as an `Option`, distinguishing an absent key from `None`. -/
def dictFind (kvs : List (String × Val)) (k : String) : Option Val :=
  (kvs.find? (fun p => p.1 == k)).map Prod.snd

/-- Leading-whitespace trim on character lists (left half of `str.strip()`). -/
def ltrimL (l : List Char) : List Char := l.dropWhile Char.isWhitespace

/-- Trailing-whitespace trim on character lists. -/
def rtrimL (l : List Char) : List Char := (l.reverse.dropWhile Char.isWhitespace).reverse

/-- Both-ends trim on character lists. -/
def stripL (l : List Char) : List Char := rtrimL (ltrimL l)

/-- Python `s.strip()` (ASCII whitespace model). -/
def pstrip (s : String) : String := ⟨stripL s.data⟩

/-- Decimal rendering of a model float.  CPython's shortest-repr algorithm is
not reproduced; the claims only depend on the rendering being non-empty. -/
def floatRepr (q : Rat) : String :=
  if q.den == 1 then toString q.num ++ ".0" else toString q

/-- Python `str(x)`.  Container reprs are abbreviated: the claims never
inspect the text of `str(list)`/`str(dict)`, only its non-emptiness. -/
def pyStr : Val → String
  | .none => "None"
  | .bool b => if b then "True" else "False"
  | .int n => toString n
  | .float q => floatRepr q
  | .str s => s
  | .list _ => "[...]"
  | .dict _ => "<dict>"

/-- Numeric value of a digit string. -/
def digitsToNat (l : List Char) : Nat := l.foldl (fun a c => 10 * a + (c.toNat - 48)) 0

/-- Model of Python `float(str)` restricted to plain signed decimal forms
(optional sign, digits with at most one dot).  Exponents, underscores and
`inf`/`nan` spellings are outside the model's scope; malformed text gives
`Option.none`, the model of `ValueError`. -/
def parseFloat (s : String) : Option Rat :=
  let cs := stripL s.data
  let sign : Int := match cs with
    | '-' :: _ => -1
    | _ => 1
  let cs := match cs with
    | '-' :: rest => rest
    | '+' :: rest => rest
    | rest => rest
  let intPart := cs.takeWhile Char.isDigit
  let rest := cs.drop intPart.length
  match rest with
  | [] =>
    if intPart.isEmpty then Option.none
    else some ((sign : Rat) * (digitsToNat intPart : Rat))
  | '.' :: frac =>
    if frac.all Char.isDigit ∧ (intPart ≠ [] ∨ frac ≠ []) then
      some ((sign : Rat) * ((digitsToNat (intPart ++ frac) : Rat) / ((10 : Rat) ^ frac.length)))
    else Option.none
  | _ => Option.none

/-- Model of Python `int(str)` (optional sign, digits only). -/
def parseIntStr (s : String) : Option Int :=
  let cs := stripL s.data
  let sign : Int := match cs with
    | '-' :: _ => -1
    | _ => 1
  let ds := match cs with
    | '-' :: rest => rest
    | '+' :: rest => rest
    | rest => rest
  if ds ≠ [] ∧ ds.all Char.isDigit then some (sign * (digitsToNat ds : Int)) else Option.none

/-- Truncation of a rational toward zero, the behaviour of Python `int(float)`. -/
def ratTrunc (q : Rat) : Int :=
  if 0 ≤ q.num then ((q.num.natAbs / q.den : Nat) : Int)
  else -((q.num.natAbs / q.den : Nat) : Int)

/-- Python `float(x)` with `TypeError`/`ValueError` mapped to `Option.none`
(the source always catches both around this call). -/
def tryFloat : Val → Option Rat
  | .none => Option.none
  | .bool b => some (if b then 1 else 0)
  | .int n => some (n : Rat)
  | .float q => some q
  | .str s => parseFloat s
  | .list _ => Option.none
  | .dict _ => Option.none

/-- Python `int(x)` with `TypeError`/`ValueError` mapped to `Option.none`. -/
def tryInt : Val → Option Int
  | .none => Option.none
  | .bool b => some (if b then 1 else 0)
  | .int n => some n
  | .float q => some (ratTrunc q)
  | .str s => parseIntStr s
  | .list _ => Option.none
  | .dict _ => Option.none

/-- Embedding of `_first_non_empty` (src/api/utils.py lines 15-22): a
stripped non-empty string is returned stripped; otherwise any value not
equal to an element of `(None, "", [], {})` is returned as is. -/
def firstNonEmpty : List Val → Val
  | [] => .none
  | v :: rest =>
    match v with
    | .str s =>
      if pstrip s ≠ "" then .str (pstrip s)
      else if s ≠ "" then .str s
      else firstNonEmpty rest
    | w => if isEmptyVal w then firstNonEmpty rest else w

/-- Embedding of `_ensure_list_of_strings` (src/api/utils.py lines 5-12). -/
def ensure_list_of_strings : Val → List String
  | .none => []
  | .str s => [s]
  | .list xs => (xs.filter truthy).map pyStr
  | _ => []

/-- Python `a or b` on the string lists produced by
`_ensure_list_of_strings`. -/
def listOr (a b : List String) : List String := if a.isEmpty then b else a

/-- A deterministic stand-in for CPython's salted string hash.  The source
only uses `hash(...) % 10**6` as an id fallback; no claim depends on the
concrete value, only on hashability and the result being an integer. -/
def strHash (s : String) : Int := s.data.foldl (fun a c => a * 31 + (c.toNat : Int)) 7

/-- Python `hash(x)`: lists and dicts are unhashable (`TypeError`). -/
def pyHash : Val → Except PyErr Int
  | .list _ => .error .typeError
  | .dict _ => .error .typeError
  | .none => .ok 271828
  | .bool b => .ok (if b then 1 else 0)
  | .int n => .ok n
  | .float q => .ok q.num
  | .str s => .ok (strHash s)

/-- Python `x == 0` (note `False == 0` is true). -/
def pyEqZero : Val → Bool
  | .int n => n == 0
  | .float q => q == 0
  | .bool b => !b
  | _ => false

/-- Python `x is None`. -/
def isNoneVal : Val → Bool
  | .none => true
  | _ => false

/-- The placeholder image substituted when no image was found. -/
def placeholderImage : String := "https://via.placeholder.com/400x250?text=Image+Not+Available"

/-- The entry list of the dictionary literal built at the end of
`normalize_scraped_listing` (src/api/utils.py lines 123-137), with the
eight canonical fields in source order. -/
def canonEntries (idv uv tv dv : Val) (q : Rat) (r : Int) (ls : String)
    (imgs : List String) : List (String × Val) :=
  [("id", idv), ("url", uv), ("title", tv), ("desc", dv), ("price", .float q),
   ("rooms", .int r), ("location", .str ls), ("images", .list (imgs.map Val.str))]

/-- The `price_block` local of `normalize_scraped_listing`
(src/api/utils.py line 40). -/
def priceBlock (raw : List (String × Val)) : Val :=
  pyOr (dictGet raw "price") (pyOr (dictGet raw "priceInfo") (.dict []))

/-- The cleaning and separator disambiguation applied to a formatted price
string (src/api/utils.py lines 52-57): strip everything but digits, `,`
and `.`; with both separators present drop `.` and turn `,` into `.`;
with more than one `.` and no `,` drop all `.`. -/
def cleanedPrice (fs : String) : String :=
  let cleaned := fs.data.filter (fun c => c.isDigit || c == ',' || c == '.')
  let cleaned :=
    if cleaned.contains '.' ∧ cleaned.contains ',' then
      (cleaned.filter (fun c => c ≠ '.')).map (fun c => if c = ',' then '.' else c)
    else if cleaned.count '.' > 1 then cleaned.filter (fun c => c ≠ '.')
    else cleaned
  ⟨cleaned⟩

/-- The `price_value` local after the dict branch (src/api/utils.py lines
41-61). -/
def priceValue (raw : List (String × Val)) : Val :=
  match priceBlock raw with
  | .dict pb =>
    let pv := firstNonEmpty
      [dictGet pb "parsed", dictGet pb "amount", dictGet pb "dataPrice", dictGet pb "value"]
    if isNoneVal pv || pyEqZero pv then
      match dictGet pb "formatted" with
      | .str fs =>
        if fs ≠ "" then
          match parseFloat (cleanedPrice fs) with
          | some q => .float q
          | Option.none => pv
        else pv
      | _ => pv
    else pv
  | pb => pb

/-- The final coercion `float(price_value) ... else 0.0` wrapped in
`try/except` (src/api/utils.py lines 63-66). -/
def normalizePrice (raw : List (String × Val)) : Rat :=
  match priceValue raw with
  | .none => 0
  | v => (tryFloat v).getD 0

/-- The `location_block` local (src/api/utils.py lines 69-74). -/
def locationBlock (raw : List (String × Val)) : Val :=
  pyOr (dictGet raw "location")
    (pyOr (dictGet raw "locationInfo") (pyOr (dictGet raw "address") (.dict [])))

/-- The `location_str` local (src/api/utils.py lines 75-88). -/
def locationStr (raw : List (String × Val)) : String :=
  match locationBlock raw with
  | .dict lb =>
    let parts := [dictGet lb "city", pyOr (dictGet lb "state") (dictGet lb "region"),
      dictGet lb "country"]
    String.intercalate ", " ((parts.filter truthy).map (fun p => pstrip (pyStr p)))
  | v => pyStr v

/-- The `location` output field, `location_str or "Location not provided"`
(src/api/utils.py line 135). -/
def normalizeLocation (raw : List (String × Val)) : String :=
  if locationStr raw ≠ "" then locationStr raw else "Location not provided"

/-- The `image_candidates` local before the primary-image fallback
(src/api/utils.py lines 91-96). -/
def imageCandidates (raw : List (String × Val)) : List String :=
  listOr (ensure_list_of_strings (dictGet raw "photos"))
    (listOr (ensure_list_of_strings (dictGet raw "imageUrls"))
      (listOr (ensure_list_of_strings (dictGet raw "images"))
        (ensure_list_of_strings (dictGet raw "gallery"))))

/-- The `image_candidates` local after the primary-image fallback
(src/api/utils.py lines 97-100). -/
def imageCandidates2 (raw : List (String × Val)) : List String :=
  if (imageCandidates raw).isEmpty then
    let primary := pyOr (dictGet raw "primaryImageUrl") (dictGet raw "image")
    if truthy primary then ensure_list_of_strings primary else imageCandidates raw
  else imageCandidates raw

/-- The `images` output field: truncation to three entries with a
placeholder fallback (src/api/utils.py line 136). -/
def normalizeImages (raw : List (String × Val)) : List String :=
  if (imageCandidates2 raw).isEmpty then [placeholderImage]
  else (imageCandidates2 raw).take 3

/-- The `description` local with its default (src/api/utils.py lines
103-108). -/
def normalizeDesc (raw : List (String × Val)) : Val :=
  pyOr (firstNonEmpty [dictGet raw "description",
      .str (String.intercalate " " (ensure_list_of_strings (dictGet raw "features"))),
      dictGet raw "summary", dictGet raw "propertyType"])
    (.str "Description not provided.")

/-- The `rooms_value` extraction and int coercion (src/api/utils.py lines
111-120). -/
def normalizeRooms (raw : List (String × Val)) : Int :=
  match firstNonEmpty [dictGet raw "rooms", dictGet raw "bedrooms",
    dictGet raw "bedroomCount", dictGet raw "roomCount"] with
  | .none => 0
  | v => (tryInt v).getD 0

/-- The argument of the `hash(...)` id fallback (src/api/utils.py line 126). -/
def hashArg (provider : String) (raw : List (String × Val)) : Val :=
  pyOr (dictGet raw "listingUrl") (pyOr (dictGet raw "url") (.str provider))

/-- Embedding of `normalize_scraped_listing` (src/api/utils.py lines
26-140).  The two statements that can raise — `(raw.get("dataAttributes")
or {}).get("id")` on a truthy non-dict (`AttributeError`) and
`hash(raw.get("listingUrl") or raw.get("url") or provider)` on an
unhashable value (`TypeError`) — are modelled in `Except`; everything else
in the source is guarded by `isinstance` checks or `try/except` and is
total. -/
def normalize_scraped_listing (provider : String) (raw : List (String × Val)) :
    Except PyErr Val :=
  if raw.isEmpty then .ok (.dict []) else
  match pyOr (dictGet raw "dataAttributes") (.dict []) with
  | .dict da =>
    match pyHash (hashArg provider raw) with
    | .error e => .error e
    | .ok h =>
      .ok (.dict (canonEntries
        (firstNonEmpty [dictGet raw "id", dictGet da "id", .int (h % 1000000)])
        (firstNonEmpty [dictGet raw "listingUrl", dictGet raw "url"])
        (firstNonEmpty [dictGet raw "title", dictGet raw "name", .str "Untitled Listing"])
        (normalizeDesc raw)
        (normalizePrice raw)
        (normalizeRooms raw)
        (normalizeLocation raw)
        (normalizeImages raw)))
  | _ => .error .attributeError

/-- Field access on a successful normalization result. -/
def outField (e : Except PyErr Val) (k : String) : Val :=
  match e with
  | .ok (.dict kvs) => dictGet kvs k
  | _ => .none

/-! Lemmas about stripping and `firstNonEmpty`. -/

theorem length_dropWhile_le_self {α : Type} (p : α → Bool) (l : List α) :
    (l.dropWhile p).length ≤ l.length := by
  induction l with
  | nil => exact Nat.le_refl 0
  | cons a t ih =>
    by_cases h : p a
    · rw [List.dropWhile_cons_of_pos h]; exact Nat.le_succ_of_le ih
    · rw [List.dropWhile_cons_of_neg h]

theorem rtrimL_eq_rdropWhile (l : List Char) : rtrimL l = l.rdropWhile Char.isWhitespace := rfl

theorem ltrimL_rtrimL (x : List Char) (hx : ltrimL x = x) : ltrimL (rtrimL x) = rtrimL x := by
  rcases hr : rtrimL x with _ | ⟨c, cs⟩
  · rfl
  · obtain ⟨t, ht⟩ := List.rdropWhile_prefix Char.isWhitespace x
    rw [← rtrimL_eq_rdropWhile, hr] at ht
    have hxc : x = c :: (cs ++ t) := by rw [← ht]; rfl
    have hc : ¬ Char.isWhitespace c := by
      intro hcw
      rw [hxc] at hx
      unfold ltrimL at hx
      rw [List.dropWhile_cons_of_pos hcw] at hx
      have hlen := congrArg List.length hx
      have hle := length_dropWhile_le_self Char.isWhitespace (cs ++ t)
      simp only [List.length_cons] at hlen
      omega
    show List.dropWhile Char.isWhitespace (c :: cs) = c :: cs
    rw [List.dropWhile_cons_of_neg hc]

theorem stripL_idem (l : List Char) : stripL (stripL l) = stripL l := by
  unfold stripL
  have hx : ltrimL (ltrimL l) = ltrimL l := by
    unfold ltrimL; exact List.dropWhile_idempotent _ _
  rw [ltrimL_rtrimL (ltrimL l) hx, rtrimL_eq_rdropWhile, rtrimL_eq_rdropWhile,
    List.rdropWhile_idempotent]

theorem pstrip_idem (s : String) : pstrip (pstrip s) = pstrip s := by
  show String.mk (stripL (stripL s.data)) = String.mk (stripL s.data)
  exact congrArg String.mk (stripL_idem s.data)

/-- The values on which `_first_non_empty` acts as the identity when they
are at the head of its argument list: non-empty values whose string form,
if any, is unchanged (or emptied) by stripping.  Every value returned by
`firstNonEmpty` is of this shape. -/
def fnfStable : Val → Prop
  | .none => False
  | .str s => s ≠ "" ∧ (pstrip s = s ∨ pstrip s = "")
  | v => isEmptyVal v = false

theorem fnfStable_isEmpty_false (v : Val) (h : fnfStable v) : isEmptyVal v = false := by
  cases v with
  | none => exact absurd h (by simp [fnfStable])
  | str s =>
    obtain ⟨h1, _⟩ := h
    simpa [isEmptyVal] using h1
  | bool b => exact h
  | int n => exact h
  | float q => exact h
  | list xs => exact h
  | dict kvs => exact h

theorem firstNonEmpty_stable (vs : List Val) :
    firstNonEmpty vs = .none ∨ fnfStable (firstNonEmpty vs) := by
  induction vs with
  | nil => exact Or.inl rfl
  | cons v rest ih =>
    cases v with
    | str s =>
      by_cases h1 : pstrip s = ""
      · by_cases h2 : s = ""
        · simpa [firstNonEmpty, h1, h2] using ih
        · right
          simp only [firstNonEmpty, h1, h2, ne_eq, not_true_eq_false, if_false,
            not_false_eq_true, if_true]
          exact ⟨h2, Or.inr h1⟩
      · right
        simp only [firstNonEmpty, h1, ne_eq, not_false_eq_true, if_true]
        exact ⟨h1, Or.inl (pstrip_idem s)⟩
    | none => simpa [firstNonEmpty, isEmptyVal] using ih
    | bool b => right; simp [firstNonEmpty, isEmptyVal, fnfStable]
    | int n => right; simp [firstNonEmpty, isEmptyVal, fnfStable]
    | float q => right; simp [firstNonEmpty, isEmptyVal, fnfStable]
    | list xs =>
      by_cases h : xs.isEmpty
      · simpa [firstNonEmpty, isEmptyVal, h] using ih
      · right; simp [firstNonEmpty, isEmptyVal, h, fnfStable]
    | dict kvs =>
      by_cases h : kvs.isEmpty
      · simpa [firstNonEmpty, isEmptyVal, h] using ih
      · right; simp [firstNonEmpty, isEmptyVal, h, fnfStable]

theorem firstNonEmpty_cons_stable (v : Val) (rest : List Val) (h : fnfStable v) :
    firstNonEmpty (v :: rest) = v := by
  cases v with
  | none => exact absurd h (by simp [fnfStable])
  | str s =>
    obtain ⟨h1, h2⟩ := h
    cases h2 with
    | inl hp => simp [firstNonEmpty, hp, h1]
    | inr hp => simp [firstNonEmpty, hp, h1]
  | bool b => simp [firstNonEmpty, isEmptyVal]
  | int n => simp [firstNonEmpty, isEmptyVal]
  | float q => simp [firstNonEmpty, isEmptyVal]
  | list xs =>
    have : isEmptyVal (.list xs) = false := h
    simp [firstNonEmpty, this]
  | dict kvs =>
    have : isEmptyVal (.dict kvs) = false := h
    simp [firstNonEmpty, this]

theorem firstNonEmpty_append_ne_none (vs : List Val) (w : Val) (hw : fnfStable w) :
    firstNonEmpty (vs ++ [w]) ≠ .none := by
  induction vs with
  | nil =>
    rw [List.nil_append, firstNonEmpty_cons_stable w [] hw]
    intro h
    rw [h] at hw
    exact hw
  | cons v rest ih =>
    cases v with
    | str s =>
      by_cases h1 : pstrip s = ""
      · by_cases h2 : s = ""
        · simpa [firstNonEmpty, h1, h2] using ih
        · simp [firstNonEmpty, h1, h2]
      · simp [firstNonEmpty, h1]
    | none => simpa [firstNonEmpty, isEmptyVal] using ih
    | bool b => simp [firstNonEmpty, isEmptyVal]
    | int n => simp [firstNonEmpty, isEmptyVal]
    | float q => simp [firstNonEmpty, isEmptyVal]
    | list xs =>
      by_cases h : xs.isEmpty
      · simpa [firstNonEmpty, isEmptyVal, h] using ih
      · simp [firstNonEmpty, isEmptyVal, h]
    | dict kvs =>
      by_cases h : kvs.isEmpty
      · simpa [firstNonEmpty, isEmptyVal, h] using ih
      · simp [firstNonEmpty, isEmptyVal, h]

/-! Lookup computations on the canonical output entry list. -/

@[simp] theorem canonGet_id (idv uv tv dv : Val) (q : Rat) (r : Int) (ls : String)
    (imgs : List String) : dictGet (canonEntries idv uv tv dv q r ls imgs) "id" = idv := rfl

@[simp] theorem canonGet_url (idv uv tv dv : Val) (q : Rat) (r : Int) (ls : String)
    (imgs : List String) : dictGet (canonEntries idv uv tv dv q r ls imgs) "url" = uv := rfl

@[simp] theorem canonGet_title (idv uv tv dv : Val) (q : Rat) (r : Int) (ls : String)
    (imgs : List String) : dictGet (canonEntries idv uv tv dv q r ls imgs) "title" = tv := rfl

@[simp] theorem canonGet_desc (idv uv tv dv : Val) (q : Rat) (r : Int) (ls : String)
    (imgs : List String) : dictGet (canonEntries idv uv tv dv q r ls imgs) "desc" = dv := rfl

@[simp] theorem canonGet_price (idv uv tv dv : Val) (q : Rat) (r : Int) (ls : String)
    (imgs : List String) :
    dictGet (canonEntries idv uv tv dv q r ls imgs) "price" = .float q := rfl

@[simp] theorem canonGet_rooms (idv uv tv dv : Val) (q : Rat) (r : Int) (ls : String)
    (imgs : List String) :
    dictGet (canonEntries idv uv tv dv q r ls imgs) "rooms" = .int r := rfl

@[simp] theorem canonGet_location (idv uv tv dv : Val) (q : Rat) (r : Int) (ls : String)
    (imgs : List String) :
    dictGet (canonEntries idv uv tv dv q r ls imgs) "location" = .str ls := rfl

@[simp] theorem canonGet_images (idv uv tv dv : Val) (q : Rat) (r : Int) (ls : String)
    (imgs : List String) :
    dictGet (canonEntries idv uv tv dv q r ls imgs) "images" = .list (imgs.map Val.str) := rfl

@[simp] theorem canonGet_priceInfo (idv uv tv dv : Val) (q : Rat) (r : Int) (ls : String)
    (imgs : List String) :
    dictGet (canonEntries idv uv tv dv q r ls imgs) "priceInfo" = .none := rfl

@[simp] theorem canonGet_locationInfo (idv uv tv dv : Val) (q : Rat) (r : Int) (ls : String)
    (imgs : List String) :
    dictGet (canonEntries idv uv tv dv q r ls imgs) "locationInfo" = .none := rfl

@[simp] theorem canonGet_address (idv uv tv dv : Val) (q : Rat) (r : Int) (ls : String)
    (imgs : List String) :
    dictGet (canonEntries idv uv tv dv q r ls imgs) "address" = .none := rfl

@[simp] theorem canonGet_photos (idv uv tv dv : Val) (q : Rat) (r : Int) (ls : String)
    (imgs : List String) :
    dictGet (canonEntries idv uv tv dv q r ls imgs) "photos" = .none := rfl

@[simp] theorem canonGet_imageUrls (idv uv tv dv : Val) (q : Rat) (r : Int) (ls : String)
    (imgs : List String) :
    dictGet (canonEntries idv uv tv dv q r ls imgs) "imageUrls" = .none := rfl

@[simp] theorem canonGet_gallery (idv uv tv dv : Val) (q : Rat) (r : Int) (ls : String)
    (imgs : List String) :
    dictGet (canonEntries idv uv tv dv q r ls imgs) "gallery" = .none := rfl

@[simp] theorem canonGet_primaryImageUrl (idv uv tv dv : Val) (q : Rat) (r : Int) (ls : String)
    (imgs : List String) :
    dictGet (canonEntries idv uv tv dv q r ls imgs) "primaryImageUrl" = .none := rfl

@[simp] theorem canonGet_image (idv uv tv dv : Val) (q : Rat) (r : Int) (ls : String)
    (imgs : List String) :
    dictGet (canonEntries idv uv tv dv q r ls imgs) "image" = .none := rfl

@[simp] theorem canonGet_description (idv uv tv dv : Val) (q : Rat) (r : Int) (ls : String)
    (imgs : List String) :
    dictGet (canonEntries idv uv tv dv q r ls imgs) "description" = .none := rfl

@[simp] theorem canonGet_features (idv uv tv dv : Val) (q : Rat) (r : Int) (ls : String)
    (imgs : List String) :
    dictGet (canonEntries idv uv tv dv q r ls imgs) "features" = .none := rfl

@[simp] theorem canonGet_summary (idv uv tv dv : Val) (q : Rat) (r : Int) (ls : String)
    (imgs : List String) :
    dictGet (canonEntries idv uv tv dv q r ls imgs) "summary" = .none := rfl

@[simp] theorem canonGet_propertyType (idv uv tv dv : Val) (q : Rat) (r : Int) (ls : String)
    (imgs : List String) :
    dictGet (canonEntries idv uv tv dv q r ls imgs) "propertyType" = .none := rfl

@[simp] theorem canonGet_bedrooms (idv uv tv dv : Val) (q : Rat) (r : Int) (ls : String)
    (imgs : List String) :
    dictGet (canonEntries idv uv tv dv q r ls imgs) "bedrooms" = .none := rfl

@[simp] theorem canonGet_bedroomCount (idv uv tv dv : Val) (q : Rat) (r : Int) (ls : String)
    (imgs : List String) :
    dictGet (canonEntries idv uv tv dv q r ls imgs) "bedroomCount" = .none := rfl

@[simp] theorem canonGet_roomCount (idv uv tv dv : Val) (q : Rat) (r : Int) (ls : String)
    (imgs : List String) :
    dictGet (canonEntries idv uv tv dv q r ls imgs) "roomCount" = .none := rfl

@[simp] theorem canonGet_dataAttributes (idv uv tv dv : Val) (q : Rat) (r : Int) (ls : String)
    (imgs : List String) :
    dictGet (canonEntries idv uv tv dv q r ls imgs) "dataAttributes" = .none := rfl

@[simp] theorem canonGet_listingUrl (idv uv tv dv : Val) (q : Rat) (r : Int) (ls : String)
    (imgs : List String) :
    dictGet (canonEntries idv uv tv dv q r ls imgs) "listingUrl" = .none := rfl

@[simp] theorem canonGet_name (idv uv tv dv : Val) (q : Rat) (r : Int) (ls : String)
    (imgs : List String) :
    dictGet (canonEntries idv uv tv dv q r ls imgs) "name" = .none := rfl

/-! Structural facts about the output fields. -/

theorem normalizeImages_bounds (raw : List (String × Val)) :
    1 ≤ (normalizeImages raw).length ∧ (normalizeImages raw).length ≤ 3 := by
  unfold normalizeImages
  by_cases h : (imageCandidates2 raw).isEmpty
  · simp [h]
  · rw [if_neg h, List.length_take]
    have hne : imageCandidates2 raw ≠ [] := by
      intro hcon; rw [hcon] at h; exact h rfl
    have hpos : 0 < (imageCandidates2 raw).length := List.length_pos.mpr hne
    constructor
    · exact Nat.le_min.mpr ⟨by norm_num, hpos⟩
    · exact Nat.min_le_left 3 _

theorem normalizeId_not_empty (a b : Val) (m : Int) :
    isEmptyVal (firstNonEmpty [a, b, .int m]) = false := by
  have hstable : fnfStable (Val.int m) := by simp [fnfStable, isEmptyVal]
  have hne : firstNonEmpty ([a, b] ++ [.int m]) ≠ .none :=
    firstNonEmpty_append_ne_none [a, b] (.int m) hstable
  rcases firstNonEmpty_stable [a, b, .int m] with h | h
  · exact absurd h hne
  · exact fnfStable_isEmpty_false _ h

/-- C1 (corrected): for a *non-empty* raw mapping, every successful
normalization yields a record whose `images` is a list of 1 to 3 strings,
whose `price` is a rational (model float), and whose `id` is non-empty.
The empty mapping returns `{}` instead, and the price may be negative;
see the counterexample. -/
theorem normalize_structurally_complete (provider : String) (raw : List (String × Val))
    (out : List (String × Val)) (hne : raw ≠ [])
    (h : normalize_scraped_listing provider raw = .ok (.dict out)) :
    (∃ imgs : List String, dictGet out "images" = .list (imgs.map Val.str) ∧
      1 ≤ imgs.length ∧ imgs.length ≤ 3) ∧
    (∃ q : Rat, dictGet out "price" = .float q) ∧
    isEmptyVal (dictGet out "id") = false := by
  have he : raw.isEmpty = false := by
    cases raw with
    | nil => exact absurd rfl hne
    | cons a t => rfl
  unfold normalize_scraped_listing at h
  rw [he] at h
  rw [if_neg (by simp)] at h
  split at h
  · split at h
    · exact absurd h (by simp)
    · simp only [Except.ok.injEq, Val.dict.injEq] at h
      subst h
      refine ⟨⟨normalizeImages raw, by simp, normalizeImages_bounds raw⟩,
        ⟨normalizePrice raw, by simp⟩, ?_⟩
      rw [canonGet_id]
      exact normalizeId_not_empty _ _ _
  · exact absurd h (by simp)

/-- Witness for C1's theorem at provider `"x"` and raw mapping
`{"id": 7, "url": "u"}`. -/
theorem normalize_structurally_complete_witness :
    (∃ imgs : List String,
      dictGet (canonEntries (Val.int 7) (Val.str "u") (Val.str "Untitled Listing")
        (Val.str "Description not provided.") 0 0 "Location not provided"
        [placeholderImage]) "images" = .list (imgs.map Val.str) ∧
      1 ≤ imgs.length ∧ imgs.length ≤ 3) ∧
    (∃ q : Rat,
      dictGet (canonEntries (Val.int 7) (Val.str "u") (Val.str "Untitled Listing")
        (Val.str "Description not provided.") 0 0 "Location not provided"
        [placeholderImage]) "price" = .float q) ∧
    isEmptyVal
      (dictGet (canonEntries (Val.int 7) (Val.str "u") (Val.str "Untitled Listing")
        (Val.str "Description not provided.") 0 0 "Location not provided"
        [placeholderImage]) "id") = false :=
  normalize_structurally_complete "x" [("id", Val.int 7), ("url", Val.str "u")] _
    (by simp) rfl

/-- C1 counterexample: the empty raw mapping normalizes to `{}` — no
`images`, no `id` — and a raw numeric price `-5` is passed through
unchanged, so `price ≥ 0` fails. -/
theorem normalize_complete_counterexample :
    normalize_scraped_listing "idealista" [] = .ok (.dict []) ∧
    outField (normalize_scraped_listing "idealista" [("price", Val.int (-5))]) "price" =
      .float (-5) ∧
    ((-5 : Rat) < 0) :=
  ⟨rfl, rfl, by norm_num⟩

/-! C2: totality of the canonicalizer. -/

/-- Values that are dictionaries. -/
def isDictVal : Val → Bool
  | .dict _ => true
  | _ => false

/-- Values Python can hash (everything in the model except lists and
dicts). -/
def hashableVal : Val → Bool
  | .list _ => false
  | .dict _ => false
  | _ => true

theorem pyHash_ok (v : Val) (h : hashableVal v = true) : ∃ n, pyHash v = .ok n := by
  cases v with
  | list xs => exact absurd h (by simp [hashableVal])
  | dict kvs => exact absurd h (by simp [hashableVal])
  | none => exact ⟨_, rfl⟩
  | bool b => exact ⟨_, rfl⟩
  | int n => exact ⟨_, rfl⟩
  | float q => exact ⟨_, rfl⟩
  | str s => exact ⟨_, rfl⟩

/-- C2 (corrected): `normalize_scraped_listing` returns normally for every
provider and raw mapping *provided* the `dataAttributes` value is a dict
after the `or {}` default and the id-hash argument is hashable.  Outside
those hypotheses the source raises (see the counterexample). -/
theorem normalize_total (provider : String) (raw : List (String × Val))
    (hda : isDictVal (pyOr (dictGet raw "dataAttributes") (.dict [])) = true)
    (hh : hashableVal (hashArg provider raw) = true) :
    ∃ out, normalize_scraped_listing provider raw = .ok out := by
  by_cases he : raw.isEmpty
  · exact ⟨.dict [], by unfold normalize_scraped_listing; rw [he, if_pos rfl]⟩
  · obtain ⟨n, hn⟩ := pyHash_ok _ hh
    unfold normalize_scraped_listing
    rw [show raw.isEmpty = false by simpa using he, if_neg (by simp)]
    rcases hval : pyOr (dictGet raw "dataAttributes") (.dict []) with _ | _ | _ | _ | _ | _ | da
    · rw [hval] at hda; exact absurd hda (by simp [isDictVal])
    · rw [hval] at hda; exact absurd hda (by simp [isDictVal])
    · rw [hval] at hda; exact absurd hda (by simp [isDictVal])
    · rw [hval] at hda; exact absurd hda (by simp [isDictVal])
    · rw [hval] at hda; exact absurd hda (by simp [isDictVal])
    · rw [hval] at hda; exact absurd hda (by simp [isDictVal])
    · rw [hn]; exact ⟨_, rfl⟩

/-- Witness for C2's theorem at provider `"idealista"` and raw mapping
`{"title": "T"}`. -/
theorem normalize_total_witness :
    ∃ out, normalize_scraped_listing "idealista" [("title", Val.str "T")] = .ok out :=
  normalize_total "idealista" [("title", Val.str "T")] rfl rfl

/-- C2 counterexample: a truthy non-dict `dataAttributes` raises
`AttributeError`, and an unhashable (list-valued) `listingUrl` raises
`TypeError`; in both cases the canonicalizer fails instead of degrading. -/
theorem normalize_total_counterexample :
    normalize_scraped_listing "idealista" [("dataAttributes", Val.str "x")] =
      .error .attributeError ∧
    normalize_scraped_listing "idealista" [("listingUrl", Val.list [Val.str "u"])] =
      .error .typeError :=
  ⟨rfl, rfl⟩

/-! C3 and C4: price parsing. -/

/-- Python `s.split()`: split on whitespace runs, dropping empty pieces. -/
def splitWs (l : List Char) : List (List Char) :=
  (l.splitOnP Char.isWhitespace).filter (fun p => !p.isEmpty)

/-- Python `s.isalpha()`: non-empty and all characters alphabetic (ASCII
model; the claims only exercise ASCII letters and `€`, which is
non-alphabetic in both models). -/
def pyIsAlpha (l : List Char) : Bool := !l.isEmpty && l.all Char.isAlpha

/-- Embedding of the price tokenization of
`IdealistaScraper._process_result` (src/scrapers/idealista.py lines
96-113) for string-valued price fields: commas are removed, the text is
split on whitespace, the last token is taken as a currency symbol when it
is alphabetic after removing dots or has at most 3 characters, the
remaining tokens are joined, filtered to digits and dots, and parsed as a
float (`ValueError` degrades to no amount). -/
def idealista_extract_price (price_raw : String) : Option Rat × Option String :=
  if price_raw = "" then (Option.none, Option.none) else
  let parts := splitWs (price_raw.data.filter (fun c => c ≠ ','))
  match parts.getLast? with
  | Option.none => (Option.none, Option.none)
  | some pc =>
    let isCur := pyIsAlpha (pc.filter (fun c => c ≠ '.')) || pc.length ≤ 3
    let numeric := if isCur then parts.dropLast.foldl (· ++ ·) ([] : List Char)
      else parts.foldl (· ++ ·) ([] : List Char)
    let currency : Option String := if isCur then some ⟨pc⟩ else Option.none
    let filtered := numeric.filter (fun c => c.isDigit || c = '.')
    let amount : Option Rat :=
      if filtered.isEmpty then Option.none
      else parseFloat ⟨filtered⟩
    (amount, currency)

/-- C3 counterexample: tokenizing `"1.234,56 €"` in the
DualTransportAdapter yields amount `1.23456`, not `1234.56`: the comma is
deleted outright, so the dot stays a decimal point. -/
theorem idealista_price_counterexample :
    idealista_extract_price "1.234,56 €" = (some (1.23456 : Rat), some "€") ∧
    (1.23456 : Rat) ≠ (1234.56 : Rat) := by
  constructor
  · have h : idealista_extract_price "1.234,56 €" =
        (some (((1 : Int) : Rat) * (((123456 : Nat) : Rat) / (10 : Rat) ^ (5 : Nat))),
         some "€") := rfl
    rw [h, Prod.mk.injEq]
    exact ⟨by rw [Option.some.injEq]; norm_num, rfl⟩
  · norm_num

/-- C3 (corrected): on `"1.234,56 €"` the adapter tokenization yields
currency `"€"` but amount `1.23456`, while the canonicalizer's
formatted-price rule yields `1234.56`. -/
theorem idealista_price_tokenization :
    idealista_extract_price "1.234,56 €" = (some (1.23456 : Rat), some "€") ∧
    outField (normalize_scraped_listing "idealista"
      [("price", Val.dict [("formatted", Val.str "1.234,56 €")])]) "price" =
      .float (1234.56 : Rat) := by
  constructor
  · have h : idealista_extract_price "1.234,56 €" =
        (some (((1 : Int) : Rat) * (((123456 : Nat) : Rat) / (10 : Rat) ^ (5 : Nat))),
         some "€") := rfl
    rw [h, Prod.mk.injEq]
    exact ⟨by rw [Option.some.injEq]; norm_num, rfl⟩
  · have h : outField (normalize_scraped_listing "idealista"
        [("price", Val.dict [("formatted", Val.str "1.234,56 €")])]) "price" =
        Val.float (((1 : Int) : Rat) * (((123456 : Nat) : Rat) / (10 : Rat) ^ (2 : Nat))) := rfl
    rw [h]
    congr 1
    norm_num

/-- C4 counterexample: a price block with only the formatted string
`"350.000"` normalizes to `350.0`, not `350000.0`: the
thousands-separator replacement fires only for more than one dot. -/
theorem single_separator_counterexample :
    outField (normalize_scraped_listing "immobiliare"
      [("price", Val.dict [("formatted", Val.str "350.000")])]) "price" =
      .float (350 : Rat) ∧
    Val.float (350 : Rat) ≠ Val.float (350000 : Rat) := by
  constructor
  · have h : outField (normalize_scraped_listing "immobiliare"
        [("price", Val.dict [("formatted", Val.str "350.000")])]) "price" =
        Val.float (((1 : Int) : Rat) * (((350000 : Nat) : Rat) / (10 : Rat) ^ (3 : Nat))) := rfl
    rw [h]
    congr 1
    norm_num
  · intro h
    injection h with h'
    exact absurd h' (by norm_num)

/-! C5: idempotence of the canonicalizer on its semantic fields. -/

/-- The value list of a `Val.list`, used to speak about the images of an
already-canonical record. -/
def valList : Val → List Val
  | .list xs => xs
  | _ => []

theorem fnf_int_last_stable (a b : Val) (m : Int) :
    fnfStable (firstNonEmpty [a, b, .int m]) := by
  have hne : firstNonEmpty ([a, b] ++ [.int m]) ≠ .none :=
    firstNonEmpty_append_ne_none [a, b] (.int m) (by simp [fnfStable, isEmptyVal])
  rcases firstNonEmpty_stable [a, b, .int m] with h | h
  · exact absurd h hne
  · exact h

theorem fnf_str_last_stable (a b : Val) (s : String) (hs : s ≠ "") (hp : pstrip s = s) :
    fnfStable (firstNonEmpty [a, b, .str s]) := by
  have hne : firstNonEmpty ([a, b] ++ [.str s]) ≠ .none :=
    firstNonEmpty_append_ne_none [a, b] (.str s) ⟨hs, Or.inl hp⟩
  rcases firstNonEmpty_stable [a, b, .str s] with h | h
  · exact absurd h hne
  · exact h

theorem normalizeLocation_ne_empty (raw : List (String × Val)) :
    normalizeLocation raw ≠ "" := by
  unfold normalizeLocation
  by_cases h : locationStr raw ≠ ""
  · rw [if_pos h]; exact h
  · rw [if_neg h]; intro hcon; exact absurd hcon (by simp)

/-- Destructuring a successful non-empty normalization into its canonical
entry list together with the stability facts needed for a second pass. -/
theorem normalize_shape (p : String) (raw out : List (String × Val)) (hne : raw ≠ [])
    (h : normalize_scraped_listing p raw = .ok (.dict out)) :
    ∃ (i u t d : Val) (q : Rat) (r : Int) (ls : String) (imgs : List String),
      out = canonEntries i u t d q r ls imgs ∧
      fnfStable i ∧ (u = .none ∨ fnfStable u) ∧ fnfStable t ∧
      ls ≠ "" ∧ imgs ≠ [] ∧ imgs.length ≤ 3 := by
  have he : raw.isEmpty = false := by
    cases raw with
    | nil => exact absurd rfl hne
    | cons a t => rfl
  unfold normalize_scraped_listing at h
  rw [he] at h
  rw [if_neg (by simp)] at h
  split at h
  · split at h
    · exact absurd h (by simp)
    · simp only [Except.ok.injEq, Val.dict.injEq] at h
      refine ⟨_, _, _, _, _, _, _, _, h.symm, fnf_int_last_stable _ _ _,
        firstNonEmpty_stable _, ?_, normalizeLocation_ne_empty raw, ?_, ?_⟩
      · exact fnf_str_last_stable _ _ "Untitled Listing" (by simp) rfl
      · have h1 := (normalizeImages_bounds raw).1
        intro hcon
        rw [hcon] at h1
        exact absurd h1 (by simp)
      · exact (normalizeImages_bounds raw).2
  · exact absurd h (by simp)

theorem isEmpty_false_of_ne_nil {α : Type} (l : List α) (h : l ≠ []) :
    l.isEmpty = false := by
  cases l with
  | nil => exact absurd rfl h
  | cons a t => rfl

theorem normalizePrice_canon (i u t d : Val) (q : Rat) (r : Int) (ls : String)
    (imgs : List String) : normalizePrice (canonEntries i u t d q r ls imgs) = q := by
  by_cases hq : q = 0
  · subst hq; rfl
  · unfold normalizePrice priceValue priceBlock pyOr
    rw [canonGet_price, canonGet_priceInfo]
    rw [if_pos (show truthy (Val.float q) = true by simpa [truthy] using hq)]
    rfl

theorem normalizeRooms_canon (i u t d : Val) (q : Rat) (r : Int) (ls : String)
    (imgs : List String) : normalizeRooms (canonEntries i u t d q r ls imgs) = r := rfl

theorem normalizeLocation_canon (i u t d : Val) (q : Rat) (r : Int) (ls : String)
    (imgs : List String) (hls : ls ≠ "") :
    normalizeLocation (canonEntries i u t d q r ls imgs) = ls := by
  have hblock : locationBlock (canonEntries i u t d q r ls imgs) = .str ls := by
    unfold locationBlock pyOr
    rw [canonGet_location]
    rw [if_pos (show truthy (Val.str ls) = true by simpa [truthy] using hls)]
  have hstr : locationStr (canonEntries i u t d q r ls imgs) = ls := by
    unfold locationStr
    rw [hblock]
    rfl
  unfold normalizeLocation
  rw [hstr, if_pos hls]

theorem listFilter_truthy_of_ne_empty (imgs : List String) (h : ∀ s ∈ imgs, s ≠ "") :
    (imgs.map Val.str).filter truthy = imgs.map Val.str := by
  induction imgs with
  | nil => rfl
  | cons a rest ih =>
    have ha : truthy (Val.str a) = true := by
      have := h a (by simp)
      simpa [truthy] using this
    simp only [List.map_cons, List.filter_cons, ha, if_true]
    rw [ih (fun s hs => h s (by simp [hs]))]

theorem map_pyStr_str (imgs : List String) : (imgs.map Val.str).map pyStr = imgs := by
  induction imgs with
  | nil => rfl
  | cons a rest ih =>
    simp only [List.map_cons]
    rw [ih]
    rfl

theorem ensure_map_str (imgs : List String) (h : ∀ s ∈ imgs, s ≠ "") :
    ensure_list_of_strings (.list (imgs.map Val.str)) = imgs := by
  show ((imgs.map Val.str).filter truthy).map pyStr = imgs
  rw [listFilter_truthy_of_ne_empty imgs h, map_pyStr_str]

theorem normalizeImages_canon (i u t d : Val) (q : Rat) (r : Int) (ls : String)
    (imgs : List String) (hne : imgs ≠ []) (hlen : imgs.length ≤ 3)
    (h : ∀ s ∈ imgs, s ≠ "") :
    normalizeImages (canonEntries i u t d q r ls imgs) = imgs := by
  have hee : imgs.isEmpty = false := isEmpty_false_of_ne_nil imgs hne
  have hcand : imageCandidates (canonEntries i u t d q r ls imgs) = imgs := by
    unfold imageCandidates
    rw [canonGet_photos, canonGet_imageUrls, canonGet_images, canonGet_gallery,
      ensure_map_str imgs h]
    show listOr [] (listOr [] (listOr imgs [])) = imgs
    unfold listOr
    simp [hee]
  have hcand2 : imageCandidates2 (canonEntries i u t d q r ls imgs) = imgs := by
    unfold imageCandidates2
    rw [hcand]
    simp [hee]
  unfold normalizeImages
  rw [hcand2]
  simp only [hee, Bool.false_eq_true, if_false]
  exact List.take_of_length_le hlen

/-- C5 (corrected): re-normalizing a successful non-empty normalization
preserves `id`, `url`, `title`, `price`, `rooms` and `location`; `images`
is preserved whenever no first-pass image string is empty.  The `desc`
field is *not* preserved (it is written under `"desc"` but read back from
`"description"`); see the counterexample. -/
theorem normalize_idempotent_fields (p : String) (raw out out' : List (String × Val))
    (hne : raw ≠ [])
    (h1 : normalize_scraped_listing p raw = .ok (.dict out))
    (h2 : normalize_scraped_listing p out = .ok (.dict out')) :
    dictGet out' "id" = dictGet out "id" ∧
    dictGet out' "url" = dictGet out "url" ∧
    dictGet out' "title" = dictGet out "title" ∧
    dictGet out' "price" = dictGet out "price" ∧
    dictGet out' "rooms" = dictGet out "rooms" ∧
    dictGet out' "location" = dictGet out "location" ∧
    (Val.str "" ∉ valList (dictGet out "images") →
      dictGet out' "images" = dictGet out "images") := by
  obtain ⟨i, u, t, d, q, r, ls, imgs, hout, hi, hu, ht, hls, himgs, hlen⟩ :=
    normalize_shape p raw out hne h1
  subst hout
  unfold normalize_scraped_listing at h2
  rw [show (canonEntries i u t d q r ls imgs).isEmpty = false from rfl] at h2
  rw [if_neg (by simp)] at h2
  rw [show pyOr (dictGet (canonEntries i u t d q r ls imgs) "dataAttributes") (.dict []) =
      .dict [] from rfl] at h2
  split at h2
  · rename_i pb hpb
    injection hpb with hpb'
    subst hpb'
    split at h2
    · exact absurd h2 (by simp)
    · rename_i n hn
      simp only [Except.ok.injEq, Val.dict.injEq] at h2
      subst h2
      refine ⟨?_, ?_, ?_, ?_, ?_, ?_, ?_⟩
      · rw [canonGet_id, canonGet_id]
        exact firstNonEmpty_cons_stable i _ hi
      · rw [canonGet_url, canonGet_url, canonGet_listingUrl]
        show firstNonEmpty [Val.none, u] = u
        rcases hu with hu | hu
        · rw [hu]; rfl
        · show firstNonEmpty (Val.none :: [u]) = u
          rw [show firstNonEmpty (Val.none :: [u]) = firstNonEmpty [u] from rfl]
          exact firstNonEmpty_cons_stable u [] hu
      · rw [canonGet_title, canonGet_title, canonGet_name]
        exact firstNonEmpty_cons_stable t _ ht
      · rw [canonGet_price, canonGet_price, normalizePrice_canon]
      · rw [canonGet_rooms, canonGet_rooms, normalizeRooms_canon]
      · rw [canonGet_location, canonGet_location, normalizeLocation_canon _ _ _ _ _ _ _ _ hls]
      · intro hmem
        rw [canonGet_images] at hmem ⊢
        rw [canonGet_images]
        have hstr : ∀ s ∈ imgs, s ≠ "" := by
          intro s hs hcon
          apply hmem
          subst hcon
          exact List.mem_map_of_mem Val.str hs
        rw [normalizeImages_canon i u t d q r ls imgs himgs hlen hstr]
  · rename_i hcontra
    exact absurd rfl (hcontra [])

/-- Concrete canonical record used to witness the idempotence theorem. -/
def c5wOut : List (String × Val) :=
  canonEntries (Val.int 7) (Val.str "u") (Val.str "Untitled Listing")
    (Val.str "Description not provided.") 0 0 "Location not provided" [placeholderImage]

/-- Witness for C5's theorem at provider `"x"` and raw mapping
`{"id": 7, "url": "u"}`, whose normalization and re-normalization both
yield `c5wOut`. -/
theorem normalize_idempotent_fields_witness :
    dictGet c5wOut "id" = dictGet c5wOut "id" ∧
    dictGet c5wOut "url" = dictGet c5wOut "url" ∧
    dictGet c5wOut "title" = dictGet c5wOut "title" ∧
    dictGet c5wOut "price" = dictGet c5wOut "price" ∧
    dictGet c5wOut "rooms" = dictGet c5wOut "rooms" ∧
    dictGet c5wOut "location" = dictGet c5wOut "location" ∧
    (Val.str "" ∉ valList (dictGet c5wOut "images") →
      dictGet c5wOut "images" = dictGet c5wOut "images") :=
  normalize_idempotent_fields "x" [("id", Val.int 7), ("url", Val.str "u")] c5wOut c5wOut
    (by simp) rfl rfl

/-- The raw mapping refuting full idempotence: a description plus an
empty-string `photos` field. -/
def c5raw : List (String × Val) := [("description", Val.str "Nice"), ("photos", Val.str "")]

/-- The second application of the canonicalizer to its own output on
`c5raw`. -/
def c5second : Except PyErr Val :=
  match normalize_scraped_listing "x" c5raw with
  | .ok (.dict kvs) => normalize_scraped_listing "x" kvs
  | v => v

/-- C5 counterexample: on `{"description": "Nice", "photos": ""}` the
first pass yields `desc = "Nice"` and `images = [""]`, but the second
pass degrades them to `"Description not provided."` and the placeholder
image: `desc` is written under `"desc"` yet read back from
`"description"`, and an empty image string is filtered out on re-entry. -/
theorem normalize_idempotent_counterexample :
    outField (normalize_scraped_listing "x" c5raw) "desc" = .str "Nice" ∧
    outField c5second "desc" = .str "Description not provided." ∧
    outField (normalize_scraped_listing "x" c5raw) "images" = .list [Val.str ""] ∧
    outField c5second "images" = .list [Val.str placeholderImage] ∧
    Val.str "Nice" ≠ Val.str "Description not provided." ∧
    Val.str "" ≠ Val.str placeholderImage := by
  refine ⟨rfl, rfl, rfl, rfl, ?_, ?_⟩
  · intro h
    injection h with h'
    exact absurd h' (by decide)
  · intro h
    injection h with h'
    exact absurd h' (by decide)

/-! C6: the Idealista dual transport (standby primary, run-sync fallback). -/

/-- The outcome of one HTTP exchange, passed to the embedded transport
code as an explicit input: either a network-level failure
(`requests.RequestException`) or a response with a status code and a
parsed JSON body. -/
inductive NetResult where
  | netError (msg : String)
  | resp (status : Nat) (body : Val)

/-- Python `v == s` for a string literal `s` (false on non-strings). -/
def isStrVal (v : Val) (s : String) : Bool :=
  match v with
  | .str t => t == s
  | _ => false

/-- Embedding of `IdealistaScraper._call_standby` (src/scrapers/idealista.py
lines 221-236): `raise_for_status` turns 4xx/5xx into an exception, and a
200 dict body whose `status` equals `"failed"` raises `ValueError` with
the body's `error` field (or a fixed message). -/
def call_standby (net : NetResult) : Except PyErr Val :=
  match net with
  | .netError m => .error (.requestException m)
  | .resp st body =>
    if 400 ≤ st ∧ st < 600 then .error (.httpError st)
    else
      match body with
      | .dict kvs =>
        if isStrVal (dictGet kvs "status") "failed" then
          .error (.valueError (pyGetDefault kvs "error" (.str "Idealista standby run failed")))
        else .ok body
      | b => .ok b

/-- Embedding of `IdealistaScraper._call_run_sync` (src/scrapers/idealista.py
lines 238-256): a bare array yields its first element (empty array is
`ValueError`); a dict with a truthy `items` entry yields `items[0]`
(string indexing and unsubscriptable values modelled faithfully); anything
else is `ValueError`. -/
def call_run_sync (net : NetResult) : Except PyErr Val :=
  match net with
  | .netError m => .error (.requestException m)
  | .resp st body =>
    if 400 ≤ st ∧ st < 600 then .error (.httpError st)
    else
      match body with
      | .list [] => .error (.valueError (.str "Idealista run-sync returned an empty dataset"))
      | .list (x :: _) => .ok x
      | .dict kvs =>
        if (kvs.any (fun p => p.1 == "items")) ∧ truthy (dictGet kvs "items") then
          match dictGet kvs "items" with
          | .list (x :: _) => .ok x
          | .str s =>
            match s.data with
            | c :: _ => .ok (.str ⟨[c]⟩)
            | [] => .error .typeError
          | .dict _ => .error .keyError
          | _ => .error .typeError
        else .error (.valueError (.str "Unexpected response format from Idealista run-sync endpoint"))
      | _ => .error (.valueError (.str "Unexpected response format from Idealista run-sync endpoint"))

/-- The two endpoints of the dual transport. -/
inductive Endpoint where
  | standby
  | runSync
  deriving Repr, DecidableEq

/-- Embedding of the transport core of `IdealistaScraper.scrape`
(src/scrapers/idealista.py lines 68-78): one standby attempt, and on
*any* exception exactly one run-sync attempt with the *same* payload.
Returns the inner result together with the trace of endpoint calls and
their payloads. -/
def idealista_fetch_raw (payload : Val) (standbyNet runSyncNet : NetResult) :
    Except PyErr Val × List (Endpoint × Val) :=
  match call_standby standbyNet with
  | .ok v => (.ok v, [(.standby, payload)])
  | .error _ => (call_run_sync runSyncNet, [(.standby, payload), (.runSync, payload)])

/-- C6 (confirmed): whenever the standby (primary) call fails in any way —
network error, non-success status, or embedded `"failed"` status in a 200
body, i.e. whenever `call_standby` yields an error — the fallback is
called exactly once with the same payload, the primary is not
re-attempted, the overall result is exactly the fallback's result, and a
fallback failure surfaces as the fallback's error, not the primary's. -/
theorem idealista_fallback_once (payload : Val) (s r : NetResult) (e : PyErr)
    (h : call_standby s = .error e) :
    (idealista_fetch_raw payload s r).2 = [(.standby, payload), (.runSync, payload)] ∧
    (idealista_fetch_raw payload s r).1 = call_run_sync r ∧
    (∀ e', call_run_sync r = .error e' → (idealista_fetch_raw payload s r).1 = .error e') := by
  unfold idealista_fetch_raw
  rw [h]
  exact ⟨rfl, rfl, fun e' h' => h'⟩

/-- Witness for C6's theorem: a 500 standby response followed by a
network-failing fallback. -/
theorem idealista_fallback_once_witness :
    (idealista_fetch_raw (.dict [("Url", .str "https://www.idealista.com/en/inmueble/1/")])
      (.resp 500 .none) (.netError "connection reset")).2 =
      [(.standby, .dict [("Url", .str "https://www.idealista.com/en/inmueble/1/")]),
       (.runSync, .dict [("Url", .str "https://www.idealista.com/en/inmueble/1/")])] ∧
    (idealista_fetch_raw (.dict [("Url", .str "https://www.idealista.com/en/inmueble/1/")])
      (.resp 500 .none) (.netError "connection reset")).1 =
      call_run_sync (.netError "connection reset") ∧
    (∀ e', call_run_sync (.netError "connection reset") = .error e' →
      (idealista_fetch_raw (.dict [("Url", .str "https://www.idealista.com/en/inmueble/1/")])
        (.resp 500 .none) (.netError "connection reset")).1 = .error e') :=
  idealista_fallback_once _ _ _ (.httpError 500) rfl

/-! A model of `urllib.parse.urlparse`/`urlunparse`, needed by the url
validators and by the Idealista url normalization. -/

/-- Characters allowed in a url scheme after the first. -/
def schemeChar (c : Char) : Bool := c.isAlphanum || c == '+' || c == '-' || c == '.'

/-- The six components of `urllib.parse.urlparse`. -/
structure UrlParts where
  scheme : List Char
  netloc : List Char
  path : List Char
  params : List Char
  query : List Char
  fragment : List Char
  deriving Repr, DecidableEq

/-- Split at the first occurrence of `c`; when absent the second part is
empty (Python `url.split(c, 1)` guarded by `c in url`). -/
def splitOnceL (l : List Char) (c : Char) : List Char × List Char :=
  match l.findIdx? (fun x => x == c) with
  | some i => (l.take i, l.drop (i + 1))
  | Option.none => (l, [])

/-- Index of the last occurrence of `c` (Python `str.rfind`), `none` when
absent. -/
def rfindIdx (l : List Char) (c : Char) : Option Nat :=
  match l.reverse.findIdx? (fun x => x == c) with
  | some j => some (l.length - 1 - j)
  | Option.none => Option.none

/-- CPython `_splitparams`: split `;params` off the last path segment. -/
def splitParamsL (url : List Char) : List Char × List Char :=
  if url.contains '/' then
    let start := (rfindIdx url '/').getD 0
    match ((url.drop start).findIdx? (fun x => x == ';')) with
    | some j => (url.take (start + j), url.drop (start + j + 1))
    | Option.none => (url, [])
  else
    match url.findIdx? (fun x => x == ';') with
    | some j => (url.take j, url.drop (j + 1))
    | Option.none => (url, [])

/-- Position of the first `:` (`url.find(':')` with "not found" mapped to
the length). -/
def schemeIdx (url : List Char) : Nat := url.findIdx (fun x => x == ':')

/-- Whether the text before the first `:` is a valid scheme (starts with
an ASCII letter, continues with scheme characters). -/
def hasSchemeB (url : List Char) : Bool :=
  decide (schemeIdx url < url.length) && decide (0 < schemeIdx url) &&
    (match url.head? with
     | some c => c.isAlpha && decide (c.toNat < 128)
     | Option.none => false) &&
    (url.take (schemeIdx url)).all schemeChar

/-- The (lowercased) scheme component. -/
def urlScheme (url : List Char) : List Char :=
  if hasSchemeB url then (url.take (schemeIdx url)).map Char.toLower else []

/-- The url with its scheme prefix removed. -/
def urlRest (url : List Char) : List Char :=
  if hasSchemeB url then url.drop (schemeIdx url + 1) else url

/-- Characters that end the netloc. -/
def netDelim (c : Char) : Bool := c == '/' || c == '?' || c == '#'

/-- The netloc component: after a leading `//`, up to the next `/?#`. -/
def urlNetloc (url : List Char) : List Char :=
  if (urlRest url).take 2 = ['/', '/'] then
    ((urlRest url).drop 2).takeWhile (fun c => !netDelim c)
  else []

/-- What remains after the netloc. -/
def urlAfterNetloc (url : List Char) : List Char :=
  if (urlRest url).take 2 = ['/', '/'] then
    ((urlRest url).drop 2).dropWhile (fun c => !netDelim c)
  else urlRest url

/-- Model of `urllib.parse.urlparse` on character lists: scheme (lowered,
only when the text before the first `:` is a valid scheme), `//`-prefixed
netloc up to the next `/?#`, then fragment, query, and params splitting in
CPython's order. -/
def urlparseL (url : List Char) : UrlParts :=
  let (rest3, fragment) := splitOnceL (urlAfterNetloc url) '#'
  let (rest4, query) := splitOnceL rest3 '?'
  let (path, params) := splitParamsL rest4
  ⟨urlScheme url, urlNetloc url, path, params, query, fragment⟩

/-- Model of `urllib.parse.urlunparse` (via `urlunsplit`). -/
def urlunparseL (u : UrlParts) : List Char :=
  let url := if u.params ≠ [] then u.path ++ ';' :: u.params else u.path
  let url :=
    if u.netloc ≠ [] ∨ url.take 2 = ['/', '/'] then
      ('/' :: '/' :: u.netloc) ++ (if url ≠ [] ∧ url.take 1 ≠ ['/'] then '/' :: url else url)
    else url
  let url := if u.scheme ≠ [] then u.scheme ++ ':' :: url else url
  let url := if u.query ≠ [] then url ++ '?' :: u.query else url
  if u.fragment ≠ [] then url ++ '#' :: u.fragment else url

/-! C7 and C8: the James Edition submit/poll/fetch job adapter. -/

/-- Embedding of `JamesEditionScraper.validate_url`
(src/scrapers/james_edition.py lines 23-37): requires a scheme and a
netloc, a netloc suffix `jamesedition.com`, and a lowercased path starting
with `/real_estate/` or `/real-estate/`. -/
def jamesedition_validate_url (url : String) : Bool :=
  if (urlparseL url.data).scheme.isEmpty || (urlparseL url.data).netloc.isEmpty then false
  else if !("jamesedition.com".data.isSuffixOf (urlparseL url.data).netloc) then false
  else
    ("/real_estate/".data.isPrefixOf ((urlparseL url.data).path.map Char.toLower)) ||
      ("/real-estate/".data.isPrefixOf ((urlparseL url.data).path.map Char.toLower))

/-- Embedding of `JamesEditionScraper._start_actor_run`
(src/scrapers/james_edition.py lines 47-74): non-201 is a fatal
`RuntimeError`; on success the run id is `data["data"]["id"]`, where a
missing key (`KeyError`) is caught and re-raised as `RuntimeError` but a
non-dict subscript target raises an uncaught `TypeError`. -/
def je_start_actor_run (net : NetResult) : Except PyErr Val :=
  match net with
  | .netError m => .error (.requestException m)
  | .resp st body =>
    if st ≠ 201 then
      .error (.runtimeError (.str "Failed to start James Edition scraper"))
    else
      match body with
      | .dict kvs =>
        match dictFind kvs "data" with
        | some (.dict kvs2) =>
          match dictFind kvs2 "id" with
          | some v => .ok v
          | Option.none => .error (.runtimeError (.str "Unexpected response format from Apify API"))
        | some _ => .error .typeError
        | Option.none => .error (.runtimeError (.str "Unexpected response format from Apify API"))
      | _ => .error .typeError

/-- Outcome of one iteration of the poll loop. -/
inductive PollStep where
  | done (datasetId : Val)
  | failed (e : PyErr)
  | again

/-- One iteration of the polling loop in
`JamesEditionScraper._wait_for_completion`
(src/scrapers/james_edition.py lines 83-110): non-200 raises
`RuntimeError`; `payload.get("data", {})` and `data.get(...)` require
dicts (`AttributeError` otherwise); `SUCCEEDED` with a truthy dataset id
finishes; `FAILED`/`TIMED-OUT` raise `RuntimeError` carrying the status;
anything else sleeps and retries. -/
def je_poll_once (net : NetResult) : PollStep :=
  match net with
  | .netError m => .failed (.requestException m)
  | .resp st body =>
    if st ≠ 200 then .failed (.runtimeError (.str "Error checking James Edition run status"))
    else
      match body with
      | .dict kvs =>
        match pyGetDefault kvs "data" (.dict []) with
        | .dict dkvs =>
          let status := dictGet dkvs "status"
          let datasetId := dictGet dkvs "defaultDatasetId"
          if isStrVal status "SUCCEEDED" ∧ truthy datasetId then .done datasetId
          else if isStrVal status "FAILED" ∨ isStrVal status "TIMED-OUT" then
            .failed (.runtimeError
              (.str ("James Edition scraper run ended with status " ++ pyStr status)))
          else .again
        | _ => .failed .attributeError
      | _ => .failed .attributeError

/-- The poll loop driven by a finite script of status responses, counting
the status requests issued; `Option.none` models the loop still running
past the end of the script (the source loop has no internal deadline). -/
def je_wait_for_completion : List NetResult → Option (Except PyErr Val × Nat)
  | [] => Option.none
  | rsp :: rest =>
    match je_poll_once rsp with
    | .done d => some (.ok d, 1)
    | .failed e => some (.error e, 1)
    | .again =>
      match je_wait_for_completion rest with
      | some (res, n) => some (res, n + 1)
      | Option.none => Option.none

/-- Embedding of `JamesEditionScraper._fetch_results`
(src/scrapers/james_edition.py lines 112-128): non-200 raises
`RuntimeError`, otherwise the parsed body is returned as is. -/
def je_fetch_results (net : NetResult) : Except PyErr Val :=
  match net with
  | .netError m => .error (.requestException m)
  | .resp st body =>
    if st ≠ 200 then .error (.runtimeError (.str "Error fetching James Edition dataset"))
    else .ok body

/-- Result of a finished (or failed) James Edition scrape together with
the number of status requests and dataset fetches performed. -/
structure JeOutcome where
  result : Except PyErr Val
  statusCalls : Nat
  fetchCalls : Nat

/-- Embedding of `JamesEditionScraper.scrape`
(src/scrapers/james_edition.py lines 39-45): validate, submit, poll,
fetch, driven by the scripted wire responses.  `Option.none` models a
scrape still blocked in the poll loop. -/
def je_scrape (url : String) (startNet : NetResult) (script : List NetResult)
    (fetchNet : NetResult) : Option JeOutcome :=
  if ¬ jamesedition_validate_url url then
    some ⟨.error (.valueError (.str "Invalid James Edition property URL.")), 0, 0⟩
  else
    match je_start_actor_run startNet with
    | .error e => some ⟨.error e, 0, 0⟩
    | .ok _ =>
      match je_wait_for_completion script with
      | Option.none => Option.none
      | some (.error e, n) => some ⟨.error e, n, 0⟩
      | some (.ok _, n) => some ⟨je_fetch_results fetchNet, n, 1⟩

/-- A 200 status response with the given status string. -/
def jeStatus (s : String) : NetResult :=
  .resp 200 (.dict [("data", .dict [("status", .str s)])])

/-- A 200 `SUCCEEDED` status response carrying a dataset id. -/
def jeSucceeded (ds : Val) : NetResult :=
  .resp 200 (.dict [("data", .dict [("status", .str "SUCCEEDED"), ("defaultDatasetId", ds)])])

/-- A 201 submit response carrying a run id. -/
def jeStarted : NetResult := .resp 201 (.dict [("data", .dict [("id", .str "run1")])])

theorem jeUrl_valid :
    jamesedition_validate_url "https://www.jamesedition.com/real_estate/1" = true := rfl

/-- C7 (confirmed): with scripted statuses QUEUED, RUNNING, then SUCCEEDED
with a (truthy) dataset id, the poll loop issues exactly 3 status
requests and returns that dataset id, and scrape returns the items
fetched from the dataset after exactly one fetch call. -/
theorem je_three_polls (ds items : Val) (hds : truthy ds = true) :
    je_wait_for_completion [jeStatus "QUEUED", jeStatus "RUNNING", jeSucceeded ds] =
      some (.ok ds, 3) ∧
    je_scrape "https://www.jamesedition.com/real_estate/1" jeStarted
      [jeStatus "QUEUED", jeStatus "RUNNING", jeSucceeded ds] (.resp 200 items) =
      some ⟨.ok items, 3, 1⟩ := by
  have h1 : je_poll_once (jeStatus "QUEUED") = .again := rfl
  have h2 : je_poll_once (jeStatus "RUNNING") = .again := rfl
  have h3 : je_poll_once (jeSucceeded ds) = .done ds := by
    show (if isStrVal (Val.str "SUCCEEDED") "SUCCEEDED" ∧ truthy ds then PollStep.done ds
      else if isStrVal (Val.str "SUCCEEDED") "FAILED" ∨ isStrVal (Val.str "SUCCEEDED") "TIMED-OUT"
        then PollStep.failed (.runtimeError
          (.str ("James Edition scraper run ended with status " ++ pyStr (Val.str "SUCCEEDED"))))
      else PollStep.again) = PollStep.done ds
    rw [if_pos ⟨rfl, hds⟩]
  have hw : je_wait_for_completion [jeStatus "QUEUED", jeStatus "RUNNING", jeSucceeded ds] =
      some (.ok ds, 3) := by
    simp only [je_wait_for_completion, h1, h2, h3]
  have hs : je_start_actor_run jeStarted = .ok (.str "run1") := rfl
  have hf : je_fetch_results (.resp 200 items) = .ok items := rfl
  refine ⟨hw, ?_⟩
  simp only [je_scrape, jeUrl_valid, hs, hw, hf, not_true_eq_false, if_false]

/-- Witness for C7's theorem at dataset id `"ds1"` and a one-item dataset. -/
theorem je_three_polls_witness :
    je_wait_for_completion [jeStatus "QUEUED", jeStatus "RUNNING", jeSucceeded (.str "ds1")] =
      some (.ok (.str "ds1"), 3) ∧
    je_scrape "https://www.jamesedition.com/real_estate/1" jeStarted
      [jeStatus "QUEUED", jeStatus "RUNNING", jeSucceeded (.str "ds1")]
      (.resp 200 (.list [.str "item"])) =
      some ⟨.ok (.list [.str "item"]), 3, 1⟩ :=
  je_three_polls (.str "ds1") (.list [.str "item"]) rfl

/-- C8 (confirmed): a first status poll of FAILED makes scrape fail after
exactly 1 status request and 0 dataset fetches, with a `RuntimeError`
(the spec's `Upstream` category) carrying the upstream status string. -/
theorem je_failed_first_poll (rest : List NetResult) (startNet fetchNet : NetResult)
    (runId : Val) (hstart : je_start_actor_run startNet = .ok runId) :
    je_scrape "https://www.jamesedition.com/real_estate/1" startNet
      (jeStatus "FAILED" :: rest) fetchNet =
      some ⟨.error (.runtimeError (.str "James Edition scraper run ended with status FAILED")),
        1, 0⟩ := by
  have hp : je_poll_once (jeStatus "FAILED") =
      .failed (.runtimeError (.str "James Edition scraper run ended with status FAILED")) := rfl
  have hw : je_wait_for_completion (jeStatus "FAILED" :: rest) =
      some (.error (.runtimeError (.str "James Edition scraper run ended with status FAILED")),
        1) := by
    simp only [je_wait_for_completion, hp]
  simp only [je_scrape, jeUrl_valid, hstart, hw, not_true_eq_false, if_false]

/-- Witness for C8's theorem with a successful submit and an empty tail
script. -/
theorem je_failed_first_poll_witness :
    je_scrape "https://www.jamesedition.com/real_estate/1" jeStarted
      [jeStatus "FAILED"] (.resp 200 .none) =
      some ⟨.error (.runtimeError (.str "James Edition scraper run ended with status FAILED")),
        1, 0⟩ :=
  je_failed_first_poll [] jeStarted (.resp 200 .none) (.str "run1") rfl

/-! C9: the three url validators. -/

/-- Python `pat in s` on character lists: contiguous substring test. -/
def isInfixOfL (pat : List Char) : List Char → Bool
  | [] => pat.isEmpty
  | c :: t => pat.isPrefixOf (c :: t) || isInfixOfL pat t

/-- Embedding of `ImmobiliareScraper.validate_url`
(src/scrapers/immobiliare.py lines 21-22): a bare substring test. -/
def immobiliare_validate_url (url : String) : Bool :=
  isInfixOfL "immobiliare.it".data url.data

/-- The `www.`-collapsing loop of `IdealistaScraper._normalize_url`
(src/scrapers/idealista.py lines 191-193): while the netloc starts with
`www.www.`, remove the first `www.`. -/
def collapseWww (l : List Char) : List Char :=
  if "www.www.".data.isPrefixOf l then collapseWww (l.drop 4) else l
termination_by l.length
decreasing_by
  rename_i h
  have hlen : 8 ≤ l.length := by
    have hpre := List.isPrefixOf_iff_prefix.mp h
    have := hpre.length_le
    simpa using this
  simp only [List.length_drop]
  omega

/-- Embedding of `IdealistaScraper._normalize_url`
(src/scrapers/idealista.py lines 178-218): strip, default scheme with a
`//` heuristic, lowercase the netloc, collapse duplicated `www.`
prefixes, fall back to the path as netloc, inject `/en` before
`/inmueble/` paths on `idealista.com` hosts, reassemble, and strip
trailing `?`/`&`. -/
def idealista_normalize_url (url : String) : Option String :=
  if url = "" then some url
  else
    let candidate := pstrip url
    if candidate = "" then Option.none
    else
      let target : List Char :=
        if isInfixOfL "//".data candidate.data then candidate.data
        else "https://".data ++ candidate.data.dropWhile (fun c => c == '/')
      let p := urlparseL target
      let netloc0 := p.netloc.map Char.toLower
      let netloc1 :=
        if "www.www.".data.isPrefixOf netloc0 then
          let n2 := collapseWww netloc0
          if "www.".data.isPrefixOf n2 then n2 else "www.".data ++ n2
        else netloc0
      let nl_path : List Char × List Char :=
        if netloc1 = [] ∧ p.path ≠ [] then (p.path, []) else (netloc1, p.path)
      let netloc := nl_path.1
      let path0 := nl_path.2
      let path :=
        if "idealista.com".data.isSuffixOf netloc then
          let lower := path0.map Char.toLower
          if ("/inmueble/".data.isPrefixOf lower) ∧ ¬ ("/en/inmueble/".data.isPrefixOf lower)
            then "/en".data ++ path0 else path0
        else path0
      let normalized := urlunparseL
        ⟨if p.scheme = [] then "https".data else p.scheme, netloc, path,
         p.params, p.query, p.fragment⟩
      some ⟨(normalized.reverse.dropWhile (fun c => c == '?' || c == '&')).reverse⟩

/-- Embedding of `IdealistaScraper.validate_url`
(src/scrapers/idealista.py lines 17-19): one of the three Idealista
domains must occur as a substring of the normalized url (empty when
normalization yields `None`). -/
def idealista_validate_url (url : String) : Bool :=
  let n := ((idealista_normalize_url url).getD "").data
  (isInfixOfL "idealista.com".data n) || (isInfixOfL "idealista.pt".data n) ||
    (isInfixOfL "idealista.it".data n)

theorem isInfixOfL_iff (pat l : List Char) : isInfixOfL pat l = true ↔ pat <:+: l := by
  induction l with
  | nil =>
    show pat.isEmpty = true ↔ pat <:+: []
    rw [List.infix_nil]
    cases pat with
    | nil => simp
    | cons c t => simp
  | cons c t ih =>
    show (pat.isPrefixOf (c :: t) || isInfixOfL pat t) = true ↔ pat <:+: c :: t
    rw [Bool.or_eq_true, List.isPrefixOf_iff_prefix, ih, List.infix_cons_iff]

theorem urlRest_suffix (url : List Char) : urlRest url <:+ url := by
  unfold urlRest
  split
  · exact List.drop_suffix _ _
  · exact List.suffix_refl url

theorem urlNetloc_substring (url : List Char) : urlNetloc url <:+: url := by
  unfold urlNetloc
  split
  · exact (((List.takeWhile_prefix _).isInfix).trans
      ((List.drop_suffix 2 (urlRest url)).isInfix)).trans (urlRest_suffix url).isInfix
  · exact List.nil_infix

theorem urlparseL_netloc (url : List Char) : (urlparseL url).netloc = urlNetloc url := rfl

/-- C9 counterexample: all three validators accept urls that are not on
the provider's domain — `immobiliare.it` in a query string of
`evil.example`, `idealista.com` inside the host
`fakeidealista.com.evil.example`, and the host `evil-jamesedition.com`
whose suffix happens to be `jamesedition.com`. -/
theorem validate_url_foreign_domains :
    immobiliare_validate_url "https://evil.example/page?ref=immobiliare.it" = true ∧
    (urlparseL "https://evil.example/page?ref=immobiliare.it".data).netloc =
      "evil.example".data ∧
    idealista_validate_url "https://fakeidealista.com.evil.example/listing" = true ∧
    (urlparseL "https://fakeidealista.com.evil.example/listing".data).netloc =
      "fakeidealista.com.evil.example".data ∧
    jamesedition_validate_url "https://evil-jamesedition.com/real_estate/1" = true ∧
    (urlparseL "https://evil-jamesedition.com/real_estate/1".data).netloc =
      "evil-jamesedition.com".data :=
  ⟨rfl, rfl, rfl, rfl, rfl, rfl⟩

/-- C9 (corrected): each `validate_url` is a pure predicate implementing a
*textual* rule rather than genuine domain membership: Immobiliare accepts
exactly the urls containing `immobiliare.it` as a substring; JamesEdition
rejects every url not containing `jamesedition.com`, and acceptance
requires the parsed netloc to end with that text and the lowercased path
to start with `/real_estate/` or `/real-estate/`; Idealista acceptance
means one of its three domains occurs in the *normalized* url.  These
rules reject urls without the domain text but also accept foreign
domains (see the counterexample). -/
theorem validate_url_textual_rules :
    (∀ url : String,
      immobiliare_validate_url url = isInfixOfL "immobiliare.it".data url.data) ∧
    (∀ url : String, isInfixOfL "jamesedition.com".data url.data = false →
      jamesedition_validate_url url = false) ∧
    (∀ url : String, jamesedition_validate_url url = true →
      ("jamesedition.com".data <:+ (urlparseL url.data).netloc) ∧
      (("/real_estate/".data <+: (urlparseL url.data).path.map Char.toLower) ∨
       ("/real-estate/".data <+: (urlparseL url.data).path.map Char.toLower))) ∧
    (∀ url : String, idealista_validate_url url = true →
      isInfixOfL "idealista.com".data ((idealista_normalize_url url).getD "").data = true ∨
      isInfixOfL "idealista.pt".data ((idealista_normalize_url url).getD "").data = true ∨
      isInfixOfL "idealista.it".data ((idealista_normalize_url url).getD "").data = true) := by
  have hje : ∀ url : String, jamesedition_validate_url url = true →
      ("jamesedition.com".data <:+ (urlparseL url.data).netloc) ∧
      (("/real_estate/".data <+: (urlparseL url.data).path.map Char.toLower) ∨
       ("/real-estate/".data <+: (urlparseL url.data).path.map Char.toLower)) := by
    intro url hv
    unfold jamesedition_validate_url at hv
    split_ifs at hv with h1 h2
    rw [Bool.not_eq_true', Bool.not_eq_false] at h2
    refine ⟨List.isSuffixOf_iff_suffix.mp h2, ?_⟩
    rw [Bool.or_eq_true, List.isPrefixOf_iff_prefix, List.isPrefixOf_iff_prefix] at hv
    exact hv
  refine ⟨fun url => rfl, ?_, hje, ?_⟩
  · intro url h
    cases hb : jamesedition_validate_url url with
    | false => rfl
    | true =>
      obtain ⟨hsuf, _⟩ := hje url hb
      have hinf : "jamesedition.com".data <:+: url.data := by
        rw [urlparseL_netloc] at hsuf
        exact (hsuf.isInfix).trans (urlNetloc_substring url.data)
      rw [(isInfixOfL_iff _ _).mpr hinf] at h
      exact absurd h (by simp)
  · intro url h
    unfold idealista_validate_url at h
    rw [Bool.or_eq_true, Bool.or_eq_true] at h
    rcases h with (h | h) | h
    · exact Or.inl h
    · exact Or.inr (Or.inl h)
    · exact Or.inr (Or.inr h)

/-- Witness for C9's theorem: the Immobiliare characterization at a
neutral url, the JamesEdition negative at a url without the domain text,
the JamesEdition positive decomposition at a genuine listing url, and the
Idealista consequence at a genuine listing url. -/
theorem validate_url_textual_rules_witness :
    (immobiliare_validate_url "http://example.org/" =
      isInfixOfL "immobiliare.it".data "http://example.org/".data) ∧
    jamesedition_validate_url "http://example.org/" = false ∧
    (("jamesedition.com".data <:+
        (urlparseL "https://www.jamesedition.com/real_estate/1".data).netloc) ∧
      (("/real_estate/".data <+:
          (urlparseL "https://www.jamesedition.com/real_estate/1".data).path.map Char.toLower) ∨
       ("/real-estate/".data <+:
          (urlparseL "https://www.jamesedition.com/real_estate/1".data).path.map Char.toLower))) ∧
    (isInfixOfL "idealista.com".data
        ((idealista_normalize_url "https://www.idealista.com/en/inmueble/1/").getD "").data
      = true ∨
     isInfixOfL "idealista.pt".data
        ((idealista_normalize_url "https://www.idealista.com/en/inmueble/1/").getD "").data
      = true ∨
     isInfixOfL "idealista.it".data
        ((idealista_normalize_url "https://www.idealista.com/en/inmueble/1/").getD "").data
      = true) :=
  ⟨validate_url_textual_rules.1 "http://example.org/",
   validate_url_textual_rules.2.1 "http://example.org/" rfl,
   validate_url_textual_rules.2.2.1 "https://www.jamesedition.com/real_estate/1" rfl,
   validate_url_textual_rules.2.2.2 "https://www.idealista.com/en/inmueble/1/" rfl⟩

/-! C10: the agency branch of the Immobiliare result processing. -/

/-- Python dict assignment `d[k] = v` on an association list: replace the
value at the (unique) key in place, or append a new entry. -/
def dictSet (kvs : List (String × Val)) (k : String) (v : Val) : List (String × Val) :=
  if kvs.any (fun p => p.1 == k) then
    kvs.map (fun p => if p.1 == k then (k, v) else p)
  else kvs ++ [(k, v)]

/-- Python `d.setdefault(k, v)`: add the entry only when the key is
absent. -/
def dictSetdefault (kvs : List (String × Val)) (k : String) (v : Val) : List (String × Val) :=
  if kvs.any (fun p => p.1 == k) then kvs else kvs ++ [(k, v)]

/-- Embedding of the `dataType == "agency"` branch of
`ImmobiliareScraper._process_result` (src/scrapers/immobiliare.py lines
99-104): copy the raw dict, set `source` to `"immobiliare"`, and
setdefault `listingUrl` to the copy's (possibly missing) `url` value. -/
def immobiliare_process_agency (raw : List (String × Val)) : List (String × Val) :=
  dictSetdefault (dictSet raw "source" (.str "immobiliare")) "listingUrl"
    (dictGet (dictSet raw "source" (.str "immobiliare")) "url")

theorem dictGet_cons_pos (a : String × Val) (t : List (String × Val)) (k : String)
    (h : a.1 = k) : dictGet (a :: t) k = a.2 := by
  unfold dictGet
  rw [List.find?_cons_of_pos]
  simpa using h

theorem dictGet_cons_neg (a : String × Val) (t : List (String × Val)) (k : String)
    (h : ¬ a.1 = k) : dictGet (a :: t) k = dictGet t k := by
  unfold dictGet
  rw [List.find?_cons_of_neg]
  simpa using h

theorem dictGet_mapset_ne (kvs : List (String × Val)) (k k' : String) (v : Val)
    (hne : k ≠ k') :
    dictGet (kvs.map (fun p => if p.1 == k' then (k', v) else p)) k = dictGet kvs k := by
  induction kvs with
  | nil => rfl
  | cons a t ih =>
    simp only [List.map_cons]
    by_cases ha : a.1 = k'
    · rw [if_pos (by simpa using ha)]
      rw [dictGet_cons_neg (k', v) _ k (fun hc => hne (hc ▸ rfl))]
      rw [dictGet_cons_neg a t k (by rw [ha]; exact fun hc => hne (hc ▸ rfl))]
      exact ih
    · rw [if_neg (by simpa using ha)]
      by_cases hak : a.1 = k
      · rw [dictGet_cons_pos a _ k hak, dictGet_cons_pos a t k hak]
      · rw [dictGet_cons_neg a _ k hak, dictGet_cons_neg a t k hak]
        exact ih

theorem dictGet_mapset_eq (kvs : List (String × Val)) (k : String) (v : Val)
    (h : kvs.any (fun p => p.1 == k) = true) :
    dictGet (kvs.map (fun p => if p.1 == k then (k, v) else p)) k = v := by
  induction kvs with
  | nil => exact absurd h (by simp)
  | cons a t ih =>
    simp only [List.map_cons]
    by_cases ha : a.1 = k
    · rw [if_pos (by simpa using ha), dictGet_cons_pos (k, v) _ k rfl]
    · rw [if_neg (by simpa using ha), dictGet_cons_neg a _ k ha]
      apply ih
      simp only [List.any_cons, Bool.or_eq_true] at h
      rcases h with h | h
      · exact absurd (by simpa using h) ha
      · exact h

theorem dictGet_append_absent (kvs : List (String × Val)) (k : String) (v : Val)
    (h : kvs.any (fun p => p.1 == k) = false) :
    dictGet (kvs ++ [(k, v)]) k = v := by
  induction kvs with
  | nil => exact dictGet_cons_pos (k, v) [] k rfl
  | cons a t ih =>
    simp only [List.cons_append]
    simp only [List.any_cons, Bool.or_eq_false_iff] at h
    rw [dictGet_cons_neg a _ k (by simpa using h.1)]
    exact ih h.2

theorem dictGet_append_ne (kvs : List (String × Val)) (k k' : String) (v : Val)
    (hne : k ≠ k') :
    dictGet (kvs ++ [(k', v)]) k = dictGet kvs k := by
  induction kvs with
  | nil => exact dictGet_cons_neg (k', v) [] k (fun hc => hne (hc ▸ rfl))
  | cons a t ih =>
    simp only [List.cons_append]
    by_cases hak : a.1 = k
    · rw [dictGet_cons_pos a _ k hak, dictGet_cons_pos a t k hak]
    · rw [dictGet_cons_neg a _ k hak, dictGet_cons_neg a t k hak]
      exact ih

theorem any_mapset_ne (kvs : List (String × Val)) (k k' : String) (v : Val) :
    (kvs.map (fun p => if p.1 == k' then (k', v) else p)).any (fun p => p.1 == k) =
      kvs.any (fun p => p.1 == k) := by
  induction kvs with
  | nil => rfl
  | cons a t ih =>
    simp only [List.map_cons, List.any_cons]
    by_cases ha : a.1 = k'
    · rw [if_pos (by simpa using ha), ih]
      have : ((k', v).1 == k) = (a.1 == k) := by rw [ha]
      rw [this]
    · rw [if_neg (by simpa using ha), ih]

theorem dictSet_get_ne (kvs : List (String × Val)) (k k' : String) (v : Val)
    (hne : k ≠ k') : dictGet (dictSet kvs k' v) k = dictGet kvs k := by
  unfold dictSet
  split
  · exact dictGet_mapset_ne kvs k k' v hne
  · exact dictGet_append_ne kvs k k' v hne

theorem dictSet_get_eq (kvs : List (String × Val)) (k : String) (v : Val) :
    dictGet (dictSet kvs k v) k = v := by
  unfold dictSet
  split
  · rename_i h
    exact dictGet_mapset_eq kvs k v h
  · rename_i h
    exact dictGet_append_absent kvs k v (Bool.eq_false_iff.mpr h)

theorem dictSet_any_ne (kvs : List (String × Val)) (k k' : String) (v : Val)
    (hne : k ≠ k') :
    (dictSet kvs k' v).any (fun p => p.1 == k) = kvs.any (fun p => p.1 == k) := by
  unfold dictSet
  split
  · exact any_mapset_ne kvs k k' v
  · rw [List.any_append]
    have hsingle : ([(k', v)] : List (String × Val)).any (fun p => p.1 == k) = false := by
      simp only [List.any_cons, List.any_nil, Bool.or_false]
      simpa using Ne.symm hne
    rw [hsingle, Bool.or_false]

/-- C10 counterexample: on an agency payload that already carries a
`source` key, the branch *overwrites* it, so the output does not agree
with the input on that original key. -/
theorem immobiliare_agency_counterexample :
    dictGet [("dataType", Val.str "agency"), ("source", Val.str "portal")] "source" =
      .str "portal" ∧
    dictGet (immobiliare_process_agency
      [("dataType", Val.str "agency"), ("source", Val.str "portal")]) "source" =
      .str "immobiliare" ∧
    Val.str "portal" ≠ Val.str "immobiliare" := by
  refine ⟨rfl, rfl, ?_⟩
  intro h
  injection h with h'
  exact absurd h' (by decide)

/-- C10 (corrected): for an agency-discriminated raw mapping, the
processed result agrees with the input on every key other than `source`
and `listingUrl`; `source` is set to `"immobiliare"` (overwriting any
original value); `listingUrl` is untouched when present and otherwise set
to the raw `url` value. -/
theorem immobiliare_agency_frame (raw : List (String × Val))
    (_hdt : dictGet raw "dataType" = .str "agency") :
    (∀ k : String, k ≠ "source" → k ≠ "listingUrl" →
      dictGet (immobiliare_process_agency raw) k = dictGet raw k) ∧
    dictGet (immobiliare_process_agency raw) "source" = .str "immobiliare" ∧
    (raw.any (fun p => p.1 == "listingUrl") = true →
      dictGet (immobiliare_process_agency raw) "listingUrl" = dictGet raw "listingUrl") ∧
    (raw.any (fun p => p.1 == "listingUrl") = false →
      dictGet (immobiliare_process_agency raw) "listingUrl" = dictGet raw "url") := by
  have hpget : ∀ k : String, k ≠ "source" →
      dictGet (dictSet raw "source" (.str "immobiliare")) k = dictGet raw k :=
    fun k hk => dictSet_get_ne raw k "source" _ hk
  have hpany : (dictSet raw "source" (.str "immobiliare")).any (fun p => p.1 == "listingUrl") =
      raw.any (fun p => p.1 == "listingUrl") :=
    dictSet_any_ne raw "listingUrl" "source" _ (by decide)
  unfold immobiliare_process_agency dictSetdefault
  refine ⟨?_, ?_, ?_, ?_⟩
  · intro k hks hkl
    split
    · exact hpget k hks
    · rw [dictGet_append_ne _ _ _ _ hkl]
      exact hpget k hks
  · split
    · exact dictSet_get_eq raw "source" _
    · rw [dictGet_append_ne _ _ _ _ (by decide)]
      exact dictSet_get_eq raw "source" _
  · intro hany
    rw [if_pos (by rw [hpany]; exact hany)]
    exact hpget "listingUrl" (by decide)
  · intro hany
    rw [if_neg (by rw [hpany, hany]; exact Bool.false_ne_true)]
    rw [dictGet_append_absent _ _ _ (by rw [hpany]; exact hany)]
    exact hpget "url" (by decide)

/-- Witness for C10's theorem on the agency payload
`{"dataType": "agency", "url": "u"}`. -/
theorem immobiliare_agency_frame_witness :
    dictGet (immobiliare_process_agency
      [("dataType", Val.str "agency"), ("url", Val.str "u")]) "dataType" =
      dictGet [("dataType", Val.str "agency"), ("url", Val.str "u")] "dataType" ∧
    dictGet (immobiliare_process_agency
      [("dataType", Val.str "agency"), ("url", Val.str "u")]) "source" =
      .str "immobiliare" ∧
    dictGet (immobiliare_process_agency
      [("dataType", Val.str "agency"), ("url", Val.str "u")]) "listingUrl" =
      dictGet [("dataType", Val.str "agency"), ("url", Val.str "u")] "url" :=
  ⟨(immobiliare_agency_frame [("dataType", Val.str "agency"), ("url", Val.str "u")] rfl).1
      "dataType" (by decide) (by decide),
   (immobiliare_agency_frame [("dataType", Val.str "agency"), ("url", Val.str "u")] rfl).2.1,
   (immobiliare_agency_frame [("dataType", Val.str "agency"), ("url", Val.str "u")] rfl).2.2.2
      rfl⟩

/-- C4 (corrected): `"350.000"` (single separator) parses as `350.0`,
since the all-dots-are-thousands rule requires more than one dot — as
`"1.234.567"`, which parses as `1234567.0`, demonstrates. -/
theorem single_separator_rule :
    outField (normalize_scraped_listing "immobiliare"
      [("price", Val.dict [("formatted", Val.str "350.000")])]) "price" =
      .float (350 : Rat) ∧
    outField (normalize_scraped_listing "immobiliare"
      [("price", Val.dict [("formatted", Val.str "1.234.567")])]) "price" =
      .float (1234567 : Rat) := by
  constructor
  · have h : outField (normalize_scraped_listing "immobiliare"
        [("price", Val.dict [("formatted", Val.str "350.000")])]) "price" =
        Val.float (((1 : Int) : Rat) * (((350000 : Nat) : Rat) / (10 : Rat) ^ (3 : Nat))) := rfl
    rw [h]
    congr 1
    norm_num
  · have h : outField (normalize_scraped_listing "immobiliare"
        [("price", Val.dict [("formatted", Val.str "1.234.567")])]) "price" =
        Val.float (((1 : Int) : Rat) * ((1234567 : Nat) : Rat)) := rfl
    rw [h]
    congr 1
    norm_num

end RealState




